import Mathlib

/-!
Verification of the EEG Paradox EDF-to-EEG converter core.

The definitions below are a shallow embedding of the Python sources:
byte buffers are lists of naturals (each entry a byte value), INT16
sample buffers are lists of integers, and the numpy array operations of
the converter are rendered as explicit index arithmetic over those
lists.  Each definition is annotated with the source location it embeds.
-/

set_option maxRecDepth 8000

namespace EEGParadox

/-! ## Byte-buffer surgery

Embeds the slice-assignment idiom used by the header patch passes in
src/converter_core.py (UniversalConverter.patch_patient_info and
UniversalConverter.patch_calibration_bytes).  A slice write
header[off:off+len(vals)] = vals is performed only when the slot fits
inside the buffer, mirroring the guard in the Python code.
-/

/-- One guarded slice assignment: write vals at offset off when the
whole slot fits, otherwise leave the buffer unchanged. -/
def setRange (l : List ℕ) (off : ℕ) (vals : List ℕ) : List ℕ :=
  if off + vals.length ≤ l.length then
    l.take off ++ vals ++ l.drop (off + vals.length)
  else l

theorem length_setRange (l : List ℕ) (off : ℕ) (vals : List ℕ) :
    (setRange l off vals).length = l.length := by
  unfold setRange
  split
  · simp only [List.length_append, List.length_take, List.length_drop]
    omega
  · rfl

theorem getD_setRange_outside (l : List ℕ) (off : ℕ) (vals : List ℕ) (i : ℕ)
    (h : i < off ∨ off + vals.length ≤ i) :
    (setRange l off vals).getD i 0 = l.getD i 0 := by
  unfold setRange
  split
  case isTrue hfit =>
    rcases h with h | h
    · rw [List.getD_append, List.getD_append]
      · rw [List.getD_eq_getElem?_getD, List.getElem?_take_of_lt h,
          ← List.getD_eq_getElem?_getD]
      · simp only [List.length_take]
        omega
      · simp only [List.length_append, List.length_take]
        omega
    · rw [List.getD_append_right]
      · rw [List.getD_eq_getElem?_getD, List.getElem?_drop,
          ← List.getD_eq_getElem?_getD]
        congr 1
        simp only [List.length_append, List.length_take]
        omega
      · simp only [List.length_append, List.length_take]
        omega
  case isFalse => rfl

theorem getD_setRange_inside (l : List ℕ) (off : ℕ) (vals : List ℕ) (i : ℕ)
    (hfit : off + vals.length ≤ l.length) (h1 : off ≤ i) (h2 : i < off + vals.length) :
    (setRange l off vals).getD i 0 = vals.getD (i - off) 0 := by
  unfold setRange
  rw [if_pos hfit, List.getD_append, List.getD_append_right]
  · congr 1
    simp only [List.length_take]
    omega
  · simp only [List.length_take]
    omega
  · simp only [List.length_append, List.length_take]
    omega

theorem setRange_of_no_fit (l : List ℕ) (off : ℕ) (vals : List ℕ)
    (h : l.length < off + vals.length) :
    setRange l off vals = l := by
  unfold setRange
  rw [if_neg (by omega)]

/-! ## Header patch passes (src/converter_core.py, lines 91-127) -/

/-- The four 32-byte patient-name slots written by
UniversalConverter.patch_patient_info (line 98). -/
def patientLocations : List ℕ := [0x0080, 0x00A0, 0x00C0, 0x0140]

/-- The 32-byte value written into each slot: the ASCII-encodable
codepoints of the name (encode with errors ignored), capped at 31
bytes and null-padded to 32 (lines 99-100).  The name is a list of
unicode codepoints; codepoints at or above 128 are dropped by the
ascii codec with errors ignored. -/
def patientBytes (name : List ℕ) : List ℕ :=
  let nb := (name.filter (fun c => c < 128)).take 31
  nb ++ List.replicate (32 - nb.length) 0

/-- Embeds UniversalConverter.patch_patient_info (lines 91-109): write the
padded name into each slot that fits entirely inside the header. -/
def patch_patient_info (header name : List ℕ) : List ℕ :=
  patientLocations.foldl (fun h off => setRange h off (patientBytes name)) header

/-- The non-marker calibration byte offsets 0x0327 .. 0x0337 from
UniversalConverter.CALIBRATION_OFFSETS (lines 33-42); the marker
channels 0 (offset 0x0326) and 18 (offset 0x0338) are never written. -/
def calOffsets : List ℕ := (List.range 17).map (fun i => 0x0327 + i)

/-- The calibration value written for maximum sensitivity
(NEW_CALIBRATION_VALUE, line 45). -/
def NEW_CALIBRATION_VALUE : ℕ := 1

/-- Embeds UniversalConverter.patch_calibration_bytes (lines 111-127): set
each in-range non-marker calibration byte to NEW_CALIBRATION_VALUE. -/
def patch_calibration_bytes (header : List ℕ) : List ℕ :=
  calOffsets.foldl
    (fun h off => if off < h.length then h.set off NEW_CALIBRATION_VALUE else h) header

theorem patientBytes_length (name : List ℕ) : (patientBytes name).length = 32 := by
  unfold patientBytes
  simp only [List.length_append, List.length_replicate]
  have : ((name.filter (fun c => c < 128)).take 31).length ≤ 31 :=
    le_trans (List.length_take_le _ _) (le_refl 31)
  omega

theorem patch_patient_info_length (header name : List ℕ) :
    (patch_patient_info header name).length = header.length := by
  unfold patch_patient_info patientLocations
  simp only [List.foldl_cons, List.foldl_nil, length_setRange]

theorem calSet_length (h : List ℕ) (off : ℕ) :
    (if off < h.length then h.set off NEW_CALIBRATION_VALUE else h).length = h.length := by
  split <;> simp

theorem foldl_calSet_length (offs : List ℕ) (h : List ℕ) :
    (offs.foldl
      (fun h off => if off < h.length then h.set off NEW_CALIBRATION_VALUE else h) h).length
      = h.length := by
  induction offs generalizing h with
  | nil => rfl
  | cons o rest ih =>
    simp only [List.foldl_cons]
    rw [ih, calSet_length]

theorem patch_calibration_bytes_length (header : List ℕ) :
    (patch_calibration_bytes header).length = header.length := by
  unfold patch_calibration_bytes
  exact foldl_calSet_length _ _

theorem getD_calSet_ne (h : List ℕ) (off i : ℕ) (hne : i ≠ off) :
    (if off < h.length then h.set off NEW_CALIBRATION_VALUE else h).getD i 0 = h.getD i 0 := by
  split
  · rw [List.getD_eq_getElem?_getD, List.getElem?_set_ne (by omega),
      ← List.getD_eq_getElem?_getD]
  · rfl

theorem foldl_calSet_notMem (offs : List ℕ) (h : List ℕ) (i : ℕ) (hmem : i ∉ offs) :
    (offs.foldl
      (fun h off => if off < h.length then h.set off NEW_CALIBRATION_VALUE else h) h).getD i 0
      = h.getD i 0 := by
  induction offs generalizing h with
  | nil => rfl
  | cons o rest ih =>
    simp only [List.foldl_cons]
    have hio : i ≠ o := fun hc => hmem (hc ▸ List.mem_cons_self o rest)
    rw [ih _ (fun hc => hmem (List.mem_cons_of_mem o hc)), getD_calSet_ne _ _ _ hio]

theorem foldl_calSet_mem (offs : List ℕ) (h : List ℕ) (i : ℕ) (hmem : i ∈ offs)
    (hlt : i < h.length) :
    (offs.foldl
      (fun h off => if off < h.length then h.set off NEW_CALIBRATION_VALUE else h) h).getD i 0
      = NEW_CALIBRATION_VALUE := by
  induction offs generalizing h with
  | nil => exact absurd hmem (List.not_mem_nil i)
  | cons o rest ih =>
    simp only [List.foldl_cons]
    by_cases hr : i ∈ rest
    · exact ih _ hr (by rw [calSet_length]; exact hlt)
    · have hio : i = o := by
        rcases List.mem_cons.mp hmem with h1 | h1
        · exact h1
        · exact absurd h1 hr
      subst hio
      rw [foldl_calSet_notMem _ _ _ hr, if_pos hlt,
        List.getD_eq_getElem?_getD, List.getElem?_set_self (by simpa using hlt)]
      rfl

/-! ## 16-bit little-endian sample codec

Embeds np.frombuffer(..., dtype of little-endian int16) and
ndarray.tobytes used in convert_raw_to_eeg (lines 168, 209, 217).
Bytes are naturals below 256; samples are signed integers in
[-32768, 32767].
-/

/-- Decode two little-endian bytes into a signed 16-bit value. -/
def decode16 (b0 b1 : ℕ) : ℤ :=
  let u : ℕ := b0 % 256 + 256 * (b1 % 256)
  if u < 32768 then (u : ℤ) else (u : ℤ) - 65536

/-- Decode a byte stream two bytes at a time (np.frombuffer with
little-endian int16); a trailing odd byte is never present in the
converter because the payload length is a multiple of the frame size. -/
def bytesToInt16 : List ℕ → List ℤ
  | b0 :: b1 :: rest => decode16 b0 b1 :: bytesToInt16 rest
  | _ => []

/-- Encode a signed 16-bit value as two little-endian bytes. -/
def encode16 (v : ℤ) : List ℕ :=
  let u : ℕ := (v % 65536).toNat
  [u % 256, u / 256]

/-- Serialize a sample list to bytes (ndarray.tobytes in C order). -/
def int16ToBytes : List ℤ → List ℕ
  | [] => []
  | v :: rest => encode16 v ++ int16ToBytes rest

theorem encode16_length (v : ℤ) : (encode16 v).length = 2 := rfl

theorem int16ToBytes_length (l : List ℤ) : (int16ToBytes l).length = 2 * l.length := by
  induction l with
  | nil => rfl
  | cons v rest ih =>
    simp only [int16ToBytes, List.length_append, List.length_cons, ih, encode16_length]
    omega

/-! ## Splice window and payload composition
(src/converter_core.py, lines 167-209)

The template payload is viewed as a frame-by-channel grid of CH = 19
int16 columns.  HEAD_FRAMES = 1250 and TAIL_FRAMES = 250 template
frames are preserved at the ends; the window start..end-1 with
end = start + min(tpl_frames - 1500, edf_frames) receives the source
samples in every non-marker column (markers are channels 0 and 18).
-/

/-- Number of channels per frame (UniversalConverter.CH). -/
def CH : ℕ := 19

/-- Frame index f of a template with T frames lies in the replacement
window computed for a source with S frames (lines 178-184):
start = 1250, end = 1250 + min (T - 1250 - 250) S, with the
subtraction taken over the integers as in Python. -/
def inWindow (T S f : ℕ) : Prop :=
  1250 ≤ f ∧ (f : ℤ) < 1250 + min ((T : ℤ) - 1500) (S : ℤ)

instance (T S f : ℕ) : Decidable (inWindow T S f) := by
  unfold inWindow
  infer_instance

/-- The flattened composed payload (lines 199-209), valid whenever the
slice assignment of line 206 broadcasts (see spliceFrames below): cell
(f, c) of the frame grid, at flat index f * CH + c, holds the source
sample of frame f - 1250 when f is in the window and c is a non-marker
channel, and the template's original sample otherwise.  When the
window is empty and at most one source row spills over, the assignment
is a no-op and every cell keeps the template sample, which this
function also yields. -/
def buildPayload (T S : ℕ) (tpl edf : List ℤ) : List ℤ :=
  (List.range (T * CH)).map (fun k =>
    if inWindow T S (k / CH) ∧ k % CH ≠ 0 ∧ k % CH ≠ 18 then
      edf.getD ((k / CH - 1250) * CH + k % CH) 0
    else tpl.getD k 0)

theorem buildPayload_length (T S : ℕ) (tpl edf : List ℤ) :
    (buildPayload T S tpl edf).length = T * CH := by
  unfold buildPayload
  rw [List.length_map, List.length_range]

theorem getD_buildPayload (T S : ℕ) (tpl edf : List ℤ) (f c : ℕ)
    (hf : f < T) (hc : c < CH) :
    (buildPayload T S tpl edf).getD (f * CH + c) 0 =
      if inWindow T S f ∧ c ≠ 0 ∧ c ≠ 18 then
        edf.getD ((f - 1250) * CH + c) 0
      else tpl.getD (f * CH + c) 0 := by
  unfold buildPayload
  have hk : f * CH + c < T * CH := by
    have h19 : CH = 19 := rfl
    rw [h19] at hc ⊢
    omega
  rw [List.getD_eq_getElem?_getD, List.getElem?_map, List.getElem?_range hk]
  have hdiv : (f * CH + c) / CH = f := by
    rw [Nat.mul_comm f CH, Nat.mul_add_div (by decide : 0 < CH),
      Nat.div_eq_of_lt hc, Nat.add_zero]
  have hmod : (f * CH + c) % CH = c := by
    rw [Nat.mul_comm f CH, Nat.mul_add_mod, Nat.mod_eq_of_lt hc]
  simp only [Option.map_some', Option.getD_some, hdiv, hmod]

/-- Embeds the numpy broadcast failure of the line 206 assignment
out[start:end, eeg_ch] = edf_frames19[:frames_to_use, eeg_ch]: when
frames_to_use = min (T - 1500) S is negative the target slice is empty
with 0 rows, while the source slice (a Python slice with a negative
stop) still has max 0 (S + frames_to_use) rows; numpy raises a
broadcast ValueError unless that row count is 0 or 1 (a length-one
leading axis broadcasts into the empty slice as a no-op). -/
def broadcastError (T S : ℕ) : Prop :=
  min ((T : ℤ) - 1500) (S : ℤ) < 0 ∧ 2 ≤ (S : ℤ) + min ((T : ℤ) - 1500) (S : ℤ)

instance (T S : ℕ) : Decidable (broadcastError T S) := by
  unfold broadcastError
  infer_instance

/-- Embeds the splice step (lines 199-206) as a whole: the assignment
raises the broadcast ValueError exactly on broadcastError inputs and
otherwise yields the composed payload grid. -/
def spliceFrames (T S : ℕ) (tpl edf : List ℤ) : Except String (List ℤ) :=
  if broadcastError T S then Except.error "could not broadcast input array"
  else Except.ok (buildPayload T S tpl edf)

/-! ## The conversion pipeline (src/converter_core.py, lines 129-232)

convert_raw_to_eeg computes edf_frames = len(raw_data) // CH
(line 145, floor division) and uses only the first edf_frames * CH
samples (line 174); composeArtifact embeds the remainder of the body
(lines 150-218): the template checks, the splice with its possible
broadcast ValueError (line 206), and the size reconciliation check
that must pass before the output bytes exist.  The returned value of the .ok
branch is the complete file content (header ++ payload ++ trailer,
lines 215-218); an .error result produces no bytes at all, matching
the fact that the output file is only opened after every check.
-/

/-- Fixed header size in bytes (UniversalConverter.HEADER). -/
def HEADER : ℕ := 1024

/-- Fixed trailer size in bytes (UniversalConverter.TRAILER). -/
def TRAILER : ℕ := 34

/-- Frame size in bytes (UniversalConverter.FRAME = CH * BPS). -/
def FRAME : ℕ := 38

/-- Embeds lines 150-218 of convert_raw_to_eeg: split the template, splice,
reconcile sizes, and emit the output bytes. -/
def composeArtifact (tpl : List ℕ) (edf_frames : ℕ) (edf_data : List ℤ)
    (name : List ℕ) : Except String (List ℕ) :=
  if tpl.length < HEADER + TRAILER then Except.error "Template too small." else
  let header := tpl.take HEADER
  let trailer := tpl.drop (tpl.length - TRAILER)
  let data_bytes := (tpl.drop HEADER).take (tpl.length - (HEADER + TRAILER))
  if data_bytes.length % FRAME ≠ 0 then
    Except.error "Template data payload not multiple of frame bytes." else
  let tpl_frames := data_bytes.length / FRAME
  let tpl_i16 := bytesToInt16 data_bytes
  let patched := patch_calibration_bytes (patch_patient_info header name)
  if broadcastError tpl_frames edf_frames then
    Except.error "could not broadcast input array" else
  let out := buildPayload tpl_frames edf_frames tpl_i16 edf_data
  let out_bytes := int16ToBytes out
  if HEADER + out_bytes.length + TRAILER ≠ tpl.length then
    Except.error "Size mismatch" else
  Except.ok (patched ++ out_bytes ++ trailer)

/-- Embeds UniversalConverter.convert_raw_to_eeg: analyze the raw samples
(edf_frames = len // CH, keep only whole frames) and compose. -/
def convert_raw_to_eeg (tpl : List ℕ) (raw : List ℤ) (name : List ℕ) :
    Except String (List ℕ) :=
  composeArtifact tpl (raw.length / CH) (raw.take (raw.length / CH * CH)) name

/-! ## Template selection (src/converter_core.py, lines 55-79)

UniversalConverter.choose_template probes the filesystem for the two
template files; the embedding abstracts the filesystem as two Booleans
recording whether each template file exists.  The Boolean paired with
the choice records whether the truncation advisory of line 76 was
printed.
-/

inductive TemplateChoice where
  | original : TemplateChoice
  | extended : TemplateChoice
deriving DecidableEq

/-- Embeds UniversalConverter.choose_template: original when the duration fits
12 minutes and the original template exists; else extended when it
exists; else original with a truncation advisory; else a
FileNotFoundError. -/
def choose_template (durationMinutes : ℚ) (origExists extExists : Bool) :
    Except Unit (TemplateChoice × Bool) :=
  if durationMinutes ≤ 12 ∧ origExists then Except.ok (TemplateChoice.original, false)
  else if extExists then Except.ok (TemplateChoice.extended, false)
  else if origExists then Except.ok (TemplateChoice.original, true)
  else Except.error ()

/-! ## Numeric sample conversion (src/converter_core.py lines 259-269
and src/EEG_Paradox_Converter_v2.py lines 456-468)

Physical values are held in microvolts (data = raw.get_data() * 1e6);
each sample is multiplied by a fixed integer scale constant, clipped
with np.clip to [-32768, 32767], and cast to int16.  The cast of a
clipped value truncates toward zero, as numpy's astype does for
in-range floats.  Reals are modelled by rationals.
-/

/-- Truncation toward zero, the effect of ndarray.astype to an integer
dtype on a value already inside the target range. -/
def ratTrunc (x : ℚ) : ℤ := if 0 ≤ x then ⌊x⌋ else ⌈x⌉

/-- Embeds np.clip(x, lo, hi) = minimum(maximum(x, lo), hi). -/
def npClip (lo hi x : ℚ) : ℚ := min (max x lo) hi

/-- The compositor-level scale constant of convert_edf_to_wineeg
(src/converter_core.py line 262). -/
def SCALING_FACTOR : ℚ := 10000000

/-- The compositor-level scale constant of EEGConverter.edf_to_raw
(src/EEG_Paradox_Converter_v2.py line 461). -/
def V2_SCALING_FACTOR : ℚ := 20

/-- One sample through the conversion: scale by the fixed factor, clip
to the signed 16-bit range, cast to a 16-bit integer. -/
def sampleToInt16 (scale x : ℚ) : ℤ :=
  ratTrunc (npClip (-32768) 32767 (x * scale))

/-! ## Per-channel sampling rates and common_fs
(src/edf_to_eeg_converter.py, lines 141-145 and 304-313)

fs_per_channel[i] = samples_per_record[i] / duration_record_s when the
record duration is positive, else 0.  common_fs compares the rates
after Python's round(fs, 6) (round half to even at six decimal
places), returns the single rounded value with flag True when they all
agree, and otherwise the mode of the unrounded rates (Counter preserves
first-occurrence order and max keeps the first maximal item).
-/

/-- Round half to even to an integer (Python's round). -/
def roundHalfEven (x : ℚ) : ℤ :=
  if x - ⌊x⌋ < 1/2 then ⌊x⌋
  else if 1/2 < x - ⌊x⌋ then ⌊x⌋ + 1
  else if ⌊x⌋ % 2 = 0 then ⌊x⌋ else ⌊x⌋ + 1

/-- Python's round(x, 6). -/
def pyRound6 (x : ℚ) : ℚ := (roundHalfEven (x * 1000000) : ℚ) / 1000000

/-- Embeds fs_per_channel (lines 141-145). -/
def fs_per_channel (samples_per_record : List ℕ) (duration_record_s : ℚ) : List ℚ :=
  samples_per_record.map (fun spr =>
    if 0 < duration_record_s then (spr : ℚ) / duration_record_s else 0)

/-- Distinct values of a list in first-occurrence order, as iterating a
Counter built from the list visits its keys. -/
def dedupFirstAux : List ℚ → List ℚ → List ℚ
  | [], _ => []
  | x :: xs, seen =>
    if x ∈ seen then dedupFirstAux xs seen else x :: dedupFirstAux xs (x :: seen)

def dedupFirst (l : List ℚ) : List ℚ := dedupFirstAux l []

/-- Embeds max(c.items(), key=count) over a Counter: scan the keys in
first-occurrence order keeping the first one whose multiplicity is
maximal (Python's max keeps the earlier item on ties, replacing only
on a strictly larger key). -/
def pyMode (l : List ℚ) : Option ℚ :=
  (dedupFirst l).foldl (fun b x =>
    match b with
    | none => some x
    | some bv => if l.count bv < l.count x then some x else some bv) none

/-- Embeds EDFHeader.common_fs (lines 304-313): compare the per-channel rates
rounded to six decimals; one distinct rounded value means agreement and
that rounded value is returned; otherwise the mode of the raw rates is
returned with the flag false. -/
def common_fs (valid : Bool) (fsPerChannel : List ℚ) : Option ℚ × Bool :=
  if ¬valid then (none, false)
  else
    let uniq := dedupFirst (fsPerChannel.map pyRound6)
    if uniq.length = 1 then (some (uniq.getD 0 0), true)
    else (pyMode fsPerChannel, false)

/-! ## Cross-validator: binary size check
(src/edf_to_eeg_converter.py, lines 567-599)

With the generated artifact present and the source header valid, the
validator computes expected = n_signals * total_samples_per_channel[0]
* bytes_per_sample and compares it with the artifact's byte size,
recording both counts in the check entry and an advice entry on
mismatch.  n_records is a signed integer in the source (it parses to
-1 when missing), so the expected count is an integer.
-/

/-- The BinaryFormat values accepted by the sidecar validation; bps is
2 for INT_16, 4 when the name contains "32", else 2 (line 580), so
FLOAT_64 also maps to 2. -/
inductive BinFmt where
  | int16 : BinFmt
  | int32 : BinFmt
  | float32 : BinFmt
  | float64 : BinFmt
deriving DecidableEq

def bytesPerSample : BinFmt → ℕ
  | BinFmt.int16 => 2
  | BinFmt.int32 => 4
  | BinFmt.float32 => 4
  | BinFmt.float64 => 2

/-- One recorded check entry with its exact byte counts (lines
586-593) and the mismatch advice flag (lines 595-599). -/
structure SizeCheck where
  expected_bytes : ℤ
  observed_bytes : ℕ
  pass : Bool
  mismatchAdvice : Bool

/-- The EEG binary size check: total samples per channel is
n_records * samples_per_record[0] (line 318), expected is
n_signals * total * bps (line 584). -/
def eeg_size_check (n_signals : ℕ) (n_records : ℤ) (spr0 : ℕ) (fmt : BinFmt)
    (file_bytes : ℕ) : SizeCheck :=
  let total_samps : ℤ := n_records * spr0
  let expected : ℤ := n_signals * total_samps * bytesPerSample fmt
  { expected_bytes := expected
    observed_bytes := file_bytes
    pass := expected = (file_bytes : ℤ)
    mismatchAdvice := expected ≠ (file_bytes : ℤ) }

/-! ## Cross-validator: channel label checks
(src/edf_to_eeg_converter.py, lines 616-633)
-/

/-- A channel label is its list of characters; Python's str.upper()
upper-cases each character. -/
def pyUpper (s : List Char) : List Char := s.map Char.toUpper

/-- Python set equality of two lists: mutual membership. -/
def pySetEq (xs ys : List (List Char)) : Bool :=
  xs.all (fun x => ys.contains x) && ys.all (fun y => xs.contains y)

structure LabelsCheck where
  pass : Bool
  lengthAdvice : Bool
  orderAdvice : Bool

/-- Embeds lines 617-633: the check passes on case-insensitive set equality;
when the sets match, differing lengths and differing orderings each
add an advice entry, never a failing check. -/
def labels_check (labels_vhdr labels_edf : List (List Char)) : LabelsCheck :=
  let same_len := labels_vhdr.length = labels_edf.length
  let same_set := pySetEq (labels_vhdr.map pyUpper) (labels_edf.map pyUpper)
  { pass := same_set
    lengthAdvice := same_set ∧ ¬same_len
    orderAdvice := same_set ∧ labels_vhdr ≠ labels_edf }

/-! ## Cross-validator: confidence scoring and assessment
(src/edf_to_eeg_converter.py, lines 639-743)
-/

/-- Clinical-plausibility flags for the source header section of
clinical_validation (lines 655-663). -/
structure ClinicalEdfFlags where
  channelsStandardOk : Bool
  samplingStandard : Bool
  durationStandard : Bool

/-- Clinical flags for the generated channel montage section
(lines 665-671). -/
structure ClinicalChannelFlags where
  valid : Bool
  hasEssential : Bool

def boolScore (b : Bool) (v : ℚ) : ℚ := if b then v else 0

/-- Accumulated clinical score and number of clinical checks
(lines 651-673). -/
def clinicalScore (e : Option ClinicalEdfFlags) (c : Option ClinicalChannelFlags) :
    ℚ × ℕ :=
  let p1 : ℚ × ℕ :=
    match e with
    | some f =>
      (boolScore f.channelsStandardOk (1/10) + boolScore f.samplingStandard (1/10) +
        boolScore f.durationStandard (1/20), 3)
    | none => (0, 0)
  let p2 : ℚ × ℕ :=
    match c with
    | some f => (boolScore f.valid (1/10) + boolScore f.hasEssential (1/20), 2)
    | none => (0, 0)
  (p1.1 + p2.1, p1.2 + p2.2)

/-- Clinical bonus: score / checks * 0.2 when any clinical check ran
(lines 673-674). -/
def clinicalBonus (e : Option ClinicalEdfFlags) (c : Option ClinicalChannelFlags) : ℚ :=
  if 0 < (clinicalScore e c).2 then
    (clinicalScore e c).1 / ((clinicalScore e c).2 : ℚ) * (1/5)
  else 0

/-- Detected-artifact severities (lines 691-704); severities other
than the three named ones contribute nothing. -/
inductive Severity where
  | severe : Severity
  | moderate : Severity
  | mild : Severity
  | other : Severity
deriving DecidableEq

def severityPenalty : Severity → ℚ
  | Severity.severe => 1/10
  | Severity.moderate => 1/20
  | Severity.mild => 1/50
  | Severity.other => 0

/-- The optional signal-quality section of the report (lines 676-706):
overall quality score on a 0..100 scale, clinical compliance score on
a 0..1 scale guarded by Python truthiness (skipped when zero or
absent), and the list of detected artifacts. -/
structure SignalQC where
  ok : Bool
  qualityScore : Option ℚ
  complianceScore : Option ℚ
  artifacts : List Severity

/-- Embeds signal_qc_bonus (lines 680-689). -/
def signalBonus (s : SignalQC) : ℚ :=
  (match s.qualityScore with
    | some q => q / 100 * (3/20)
    | none => 0) +
  (match s.complianceScore with
    | some cs => if cs ≠ 0 then cs * (1/10) else 0
    | none => 0)

/-- Embeds advanced_penalty from detected artifacts (lines 691-704), only
accumulated when the signal-QC section ran and reported ok. -/
def advancedPenalty (sig : Option SignalQC) : ℚ :=
  match sig with
  | some s => if s.ok then (s.artifacts.map severityPenalty).sum else 0
  | none => 0

/-- Embeds advanced_bonus (lines 647-706): clinical bonus plus, when the
signal-QC section reported ok, the signal bonus. -/
def advancedBonus (e : Option ClinicalEdfFlags) (c : Option ClinicalChannelFlags)
    (sig : Option SignalQC) : ℚ :=
  clinicalBonus e c +
    (match sig with
      | some s => if s.ok then signalBonus s else 0
      | none => 0)

/-- Embeds base_confidence = passed / total when any checks ran, else 0
(lines 640-644). -/
def baseConfidence (passed total : ℕ) : ℚ :=
  if total ≠ 0 then (passed : ℚ) / total else 0

/-- Embeds final_confidence (lines 708-714): base plus bonus minus the
critical-issue penalty (0.25 each), the warning penalty (0.03 each)
and the artifact penalty, clamped to [0, 1]. -/
def finalConfidence (checks : List Bool) (criticals warnings : ℕ)
    (e : Option ClinicalEdfFlags) (c : Option ClinicalChannelFlags)
    (sig : Option SignalQC) : ℚ :=
  max 0 (min 1 (baseConfidence (checks.count true) checks.length
    + advancedBonus e c sig - (criticals : ℚ) * (1/4) - (warnings : ℚ) * (3/100)
    - advancedPenalty sig))

/-- Python's round(x, 3), applied to the confidence before it is
reported (line 716). -/
def pyRound3 (x : ℚ) : ℚ := (roundHalfEven (x * 1000) : ℚ) / 1000

/-- The ordered assessment tiers of lines 726-743, worst to best. -/
inductive Assessment where
  | critical : Assessment
  | poor : Assessment
  | fair : Assessment
  | good : Assessment
  | veryGood : Assessment
  | excellent : Assessment
deriving DecidableEq

def Assessment.rank : Assessment → ℕ
  | Assessment.critical => 0
  | Assessment.poor => 1
  | Assessment.fair => 2
  | Assessment.good => 3
  | Assessment.veryGood => 4
  | Assessment.excellent => 5

/-- The tier thresholds of lines 726-743, applied to the unrounded
final confidence. -/
def assessmentOf (confidence : ℚ) : Assessment :=
  if 95/100 ≤ confidence then Assessment.excellent
  else if 85/100 ≤ confidence then Assessment.veryGood
  else if 75/100 ≤ confidence then Assessment.good
  else if 60/100 ≤ confidence then Assessment.fair
  else if 40/100 ≤ confidence then Assessment.poor
  else Assessment.critical

/-! ## Claim theorems -/

/-- Counterexample for C1: for a template payload of 1400 frames and a
source of 200 frames the splice assignment of line 206 raises a numpy
broadcast ValueError (empty target slice, 100 source rows), so no
composed payload exists at this (T, S) and the claim's universally
quantified cell properties have nothing to hold of. -/
theorem splice_correctness_counterexample :
    spliceFrames 1400 200 (List.replicate (1400 * 19) 0) (List.replicate (200 * 19) 0)
      = Except.error "could not broadcast input array"
    ∧ ∀ out : List ℤ, spliceFrames 1400 200 (List.replicate (1400 * 19) 0)
        (List.replicate (200 * 19) 0) ≠ Except.ok out := by
  have h : spliceFrames 1400 200 (List.replicate (1400 * 19) 0)
      (List.replicate (200 * 19) 0) = Except.error "could not broadcast input array" := by
    unfold spliceFrames
    rw [if_pos (by decide)]
  refine ⟨h, fun out hc => ?_⟩
  rw [h] at hc
  exact Except.noConfusion hc

/-- Amended claim C1.  Splice correctness on the non-faulting inputs:
with start = 1250 and end = start + min (T - 1250 - 250) S, whenever
the line 206 assignment broadcasts (T at least 1500, or at most one
source row spilling into the empty window — otherwise the conversion
aborts with a broadcast error and composes nothing), the splice
succeeds and every cell of the composed payload grid outside the
window keeps the template's sample in every channel, the marker
columns 0 and 18 keep the template's samples at every frame including
inside the window, and inside the window every non-marker column holds
the source sample of frame f - start. -/
theorem splice_correctness (T S : ℕ) (tpl edf : List ℤ) (f c : ℕ)
    (hf : f < T) (hc : c < CH) (hok : ¬broadcastError T S) :
    ∃ out, spliceFrames T S tpl edf = Except.ok out
    ∧ (¬inWindow T S f →
      out.getD (f * CH + c) 0 = tpl.getD (f * CH + c) 0)
    ∧ (c = 0 ∨ c = 18 →
      out.getD (f * CH + c) 0 = tpl.getD (f * CH + c) 0)
    ∧ (inWindow T S f → c ≠ 0 → c ≠ 18 →
      out.getD (f * CH + c) 0 =
        edf.getD ((f - 1250) * CH + c) 0) := by
  refine ⟨buildPayload T S tpl edf, by unfold spliceFrames; rw [if_neg hok], ?_⟩
  rw [getD_buildPayload T S tpl edf f c hf hc]
  refine ⟨?_, ?_, ?_⟩
  · intro hw
    rw [if_neg (by tauto)]
  · intro hm
    rw [if_neg (by tauto)]
  · intro hw h0 h18
    rw [if_pos ⟨hw, h0, h18⟩]

/-- Witness for C1 at a concrete input: template of 1501 frames, source
of one frame; the splice broadcasts, frame 1250 is in the window, and
channel 1 is non-marker. -/
theorem splice_correctness_witness :
    (1250 : ℕ) < 1501 ∧ (1 : ℕ) < CH ∧ ¬broadcastError 1501 1 ∧
    ∃ out, spliceFrames 1501 1 [] [] = Except.ok out
    ∧ out.getD (1250 * CH + 1) 0 = ([] : List ℤ).getD ((1250 - 1250) * CH + 1) 0 := by
  refine ⟨by decide, by decide, by decide, ?_⟩
  obtain ⟨out, hout, hprops⟩ :=
    splice_correctness 1501 1 [] [] 1250 1 (by decide) (by decide) (by decide)
  exact ⟨out, hout, hprops.2.2 (by decide) (by decide) (by decide)⟩

/-- Claim C9.  Implicit remainder behavior: the source frame count is the
floor division of the sample count by CH = 19, only the first
edf_frames * CH samples influence the result, and the trailing partial
frame is discarded without any error: the conversion of any raw sample
list equals the conversion of its truncation to whole frames. -/
theorem remainder_discarded (tpl : List ℕ) (raw : List ℤ) (name : List ℕ) :
    convert_raw_to_eeg tpl raw name =
      convert_raw_to_eeg tpl (raw.take (raw.length / CH * CH)) name := by
  unfold convert_raw_to_eeg
  have h1 : (raw.take (raw.length / CH * CH)).length = raw.length / CH * CH := by
    rw [List.length_take]
    exact min_eq_left (Nat.div_mul_le_self _ _)
  rw [h1, Nat.mul_div_cancel _ (by decide : 0 < CH), List.take_take, min_self]

/-- Counterexample for C2: a template of 54258 bytes satisfies both
validity hypotheses of the claim (length at least 1058, payload 53200
a multiple of 38, i.e. 1400 frames), yet with a 200-frame source the
conversion raises the numpy broadcast ValueError of line 206 instead
of producing an artifact, so the claimed universally quantified size
invariant fails at this input. -/
theorem size_invariant_counterexample :
    ((HEADER + TRAILER : ℕ) ≤ 54258 ∧ ((54258 : ℕ) - (HEADER + TRAILER)) % FRAME = 0)
    ∧ convert_raw_to_eeg (List.replicate 54258 0) (List.replicate 3800 0) []
        = Except.error "could not broadcast input array" := by
  refine ⟨⟨by decide, by decide⟩, ?_⟩
  unfold convert_raw_to_eeg
  simp only [composeArtifact, List.length_replicate]
  rw [if_neg (by decide)]
  have hlen : (((List.replicate 54258 (0 : ℕ)).drop HEADER).take
      (54258 - (HEADER + TRAILER))).length = 54258 - (HEADER + TRAILER) := by
    simp only [List.length_take, List.length_drop, List.length_replicate]
    decide
  rw [hlen, if_neg (by decide), if_pos (by decide)]

/-- Amended claim C2.  Size invariant on the non-faulting inputs: for
any template at least HEADER + TRAILER bytes long whose payload length
is a multiple of FRAME, and any raw sample list whose frame count does
not trip the broadcast fault of the splice (payload at least 1500
frames, or at most one source row spilling into the empty window), the
conversion succeeds and the composed artifact has exactly the
template's byte length; the emitted bytes exist only in the success
branch, after the size reconciliation check, so on any fatal error —
including the broadcast fault — no output bytes are produced. -/
theorem size_invariant (tpl : List ℕ) (raw : List ℤ) (name : List ℕ)
    (h1 : HEADER + TRAILER ≤ tpl.length)
    (h2 : (tpl.length - (HEADER + TRAILER)) % FRAME = 0)
    (h3 : ¬broadcastError ((tpl.length - (HEADER + TRAILER)) / FRAME)
      (raw.length / CH)) :
    ∃ out, convert_raw_to_eeg tpl raw name = Except.ok out ∧
      out.length = tpl.length := by
  have hHT : HEADER + TRAILER = 1058 := rfl
  have hF : FRAME = 38 := rfl
  have hH : HEADER = 1024 := rfl
  have hT : TRAILER = 34 := rfl
  have hCH : CH = 19 := rfl
  simp only [convert_raw_to_eeg, composeArtifact]
  rw [if_neg (by omega)]
  have hlen : ((tpl.drop HEADER).take (tpl.length - (HEADER + TRAILER))).length
      = tpl.length - (HEADER + TRAILER) := by
    simp only [List.length_take, List.length_drop]
    omega
  rw [hlen, if_neg (by omega), if_neg h3]
  obtain ⟨k, hk⟩ : ∃ k, tpl.length - (HEADER + TRAILER) = k * FRAME :=
    ⟨_, (Nat.div_mul_cancel (Nat.dvd_of_mod_eq_zero h2)).symm⟩
  have hout : (int16ToBytes (buildPayload ((tpl.length - (HEADER + TRAILER)) / FRAME)
      (raw.length / CH) (bytesToInt16 ((tpl.drop HEADER).take
        (tpl.length - (HEADER + TRAILER))))
      (raw.take (raw.length / CH * CH)))).length = tpl.length - (HEADER + TRAILER) := by
    rw [int16ToBytes_length, buildPayload_length, hk,
      Nat.mul_div_cancel _ (by omega : 0 < FRAME), hF, hCH]
    omega
  rw [hout, if_neg (by omega)]
  refine ⟨_, rfl, ?_⟩
  simp only [List.length_append, List.length_drop,
    patch_calibration_bytes_length, patch_patient_info_length, List.length_take]
  omega

/-- Witness for C2: a template of exactly HEADER + TRAILER bytes (an
empty payload) and a two-sample source (zero whole frames, no
broadcast fault) convert successfully to an artifact of the same
length. -/
theorem size_invariant_witness :
    HEADER + TRAILER ≤ (List.replicate 1058 (0 : ℕ)).length ∧
    ∃ out, convert_raw_to_eeg (List.replicate 1058 0) [5, 7] [] = Except.ok out ∧
      out.length = (List.replicate 1058 (0 : ℕ)).length :=
  ⟨by simp only [List.length_replicate]; decide,
    size_invariant (List.replicate 1058 0) [5, 7] []
      (by simp only [List.length_replicate]; decide)
      (by simp only [List.length_replicate]; decide)
      (by simp only [List.length_replicate, List.length_cons, List.length_nil]; decide)⟩

/-- A slice write leaves position i unchanged whenever i is outside the
slot or the slot does not fit. -/
theorem getD_setRange_generic (l : List ℕ) (off : ℕ) (vals : List ℕ) (i : ℕ)
    (h : off + vals.length ≤ l.length → ¬(off ≤ i ∧ i < off + vals.length)) :
    (setRange l off vals).getD i 0 = l.getD i 0 := by
  by_cases hfit : off + vals.length ≤ l.length
  · exact getD_setRange_outside _ _ _ _ (by have := h hfit; omega)
  · rw [setRange_of_no_fit _ _ _ (by omega)]

/-- Claim C10.  Both header patch passes are total, length-preserving and
touch only their fixed target slots: patch_patient_info writes the
padded name into each of the four 32-byte slots that fit inside the
buffer and changes nothing else; patch_calibration_bytes sets each
in-range byte among 0x0327..0x0337 to NEW_CALIBRATION_VALUE and
changes nothing else, in particular the marker bytes at 0x0326 and
0x0338; a slot that would extend past the end of the buffer is
silently skipped. -/
theorem header_patches (header name : List ℕ) :
    (patch_patient_info header name).length = header.length
    ∧ (patch_calibration_bytes header).length = header.length
    ∧ (∀ i, (∀ off ∈ patientLocations, off + 32 ≤ header.length →
          ¬(off ≤ i ∧ i < off + 32)) →
        (patch_patient_info header name).getD i 0 = header.getD i 0)
    ∧ (∀ off ∈ patientLocations, off + 32 ≤ header.length → ∀ j < 32,
        (patch_patient_info header name).getD (off + j) 0 = (patientBytes name).getD j 0)
    ∧ (∀ i, i ∉ calOffsets →
        (patch_calibration_bytes header).getD i 0 = header.getD i 0)
    ∧ (∀ i ∈ calOffsets, i < header.length →
        (patch_calibration_bytes header).getD i 0 = NEW_CALIBRATION_VALUE) := by
  have hpb : (patientBytes name).length = 32 := patientBytes_length name
  refine ⟨patch_patient_info_length header name, patch_calibration_bytes_length header,
    ?_, ?_, ?_, ?_⟩
  · intro i hi
    have h80 := hi 0x0080 (by simp [patientLocations])
    have hA0 := hi 0x00A0 (by simp [patientLocations])
    have hC0 := hi 0x00C0 (by simp [patientLocations])
    have h40 := hi 0x0140 (by simp [patientLocations])
    unfold patch_patient_info patientLocations
    simp only [List.foldl_cons, List.foldl_nil]
    rw [getD_setRange_generic, getD_setRange_generic, getD_setRange_generic,
      getD_setRange_generic]
    · simpa only [hpb] using fun hf => h80 hf
    · simp only [hpb, length_setRange]
      exact fun hf => hA0 hf
    · simp only [hpb, length_setRange]
      exact fun hf => hC0 hf
    · simp only [hpb, length_setRange]
      exact fun hf => h40 hf
  · intro off hoff hfit j hj
    simp only [patientLocations, List.mem_cons, List.not_mem_nil, or_false] at hoff
    unfold patch_patient_info patientLocations
    simp only [List.foldl_cons, List.foldl_nil]
    rcases hoff with rfl | rfl | rfl | rfl
    · rw [getD_setRange_generic, getD_setRange_generic, getD_setRange_generic,
        getD_setRange_inside _ _ _ _ (by omega) (by omega) (by omega)]
      · congr 1
        omega
      · simp only [hpb, length_setRange]
        omega
      · simp only [hpb, length_setRange]
        omega
      · simp only [hpb, length_setRange]
        omega
    · rw [getD_setRange_generic, getD_setRange_generic,
        getD_setRange_inside _ _ _ _ (by simp only [hpb, length_setRange]; omega)
          (by omega) (by omega)]
      · congr 1
        omega
      · simp only [hpb, length_setRange]
        omega
      · simp only [hpb, length_setRange]
        omega
    · rw [getD_setRange_generic,
        getD_setRange_inside _ _ _ _ (by simp only [hpb, length_setRange]; omega)
          (by omega) (by omega)]
      · congr 1
        omega
      · simp only [hpb, length_setRange]
        omega
    · rw [getD_setRange_inside _ _ _ _ (by simp only [hpb, length_setRange]; omega)
        (by omega) (by omega)]
      congr 1
      omega
  · intro i hi
    unfold patch_calibration_bytes
    exact foldl_calSet_notMem _ _ _ hi
  · intro i hi hlt
    unfold patch_calibration_bytes
    exact foldl_calSet_mem _ _ _ hi hlt

/-- Witness for C10: a 1024-byte header of sevens with name bytes for
two characters; slot 0x0080 receives the first name byte, the marker
calibration byte 0x0326 is untouched, 0x0327 becomes the calibration
constant, and both passes preserve the length. -/
theorem header_patches_witness :
    (patch_patient_info (List.replicate 1024 7) [65, 66]).getD 0x0080 0
        = (patientBytes [65, 66]).getD 0 0
    ∧ (patch_calibration_bytes (List.replicate 1024 7)).getD 0x0326 0
        = (List.replicate 1024 7).getD 0x0326 0
    ∧ (patch_calibration_bytes (List.replicate 1024 7)).getD 0x0327 0
        = NEW_CALIBRATION_VALUE
    ∧ (patch_patient_info (List.replicate 1024 7) [65, 66]).length = 1024 := by
  refine ⟨?_, ?_, ?_, ?_⟩
  · have h := (header_patches (List.replicate 1024 7) [65, 66]).2.2.2.1 0x0080
      (by simp [patientLocations]) (by simp only [List.length_replicate]; decide)
      0 (by decide)
    simpa using h
  · exact (header_patches (List.replicate 1024 7) [65, 66]).2.2.2.2.1 0x0326 (by decide)
  · exact (header_patches (List.replicate 1024 7) [65, 66]).2.2.2.2.2 0x0327 (by decide)
      (by simp only [List.length_replicate]; decide)
  · simpa using (header_patches (List.replicate 1024 7) [65, 66]).1

/-- Claim C4.  Template selection: the short-capacity (original) template is
chosen for durations of at most 12 minutes and the extended one
otherwise; a missing preferred template falls back to the other
existing one, with the truncation advisory exactly when the fallback is
the smaller original template for a duration beyond its capacity; the
no-template error is raised exactly when neither file exists. -/
theorem template_selection (dur : ℚ) (orig ext : Bool) :
    (dur ≤ 12 → orig = true →
      choose_template dur orig ext = Except.ok (TemplateChoice.original, false))
    ∧ (12 < dur → ext = true →
      choose_template dur orig ext = Except.ok (TemplateChoice.extended, false))
    ∧ (orig = false → ext = true →
      choose_template dur orig ext = Except.ok (TemplateChoice.extended, false))
    ∧ (12 < dur → ext = false → orig = true →
      choose_template dur orig ext = Except.ok (TemplateChoice.original, true))
    ∧ (choose_template dur orig ext = Except.error () ↔ orig = false ∧ ext = false) := by
  unfold choose_template
  refine ⟨?_, ?_, ?_, ?_, ?_⟩
  · intro hd ho
    rw [if_pos ⟨hd, by simp [ho]⟩]
  · intro hd he
    rw [if_neg (by rintro ⟨h, -⟩; exact absurd hd (not_lt.mpr h)), if_pos (by simp [he])]
  · intro ho he
    rw [if_neg (by rintro ⟨-, h⟩; simp [ho] at h), if_pos (by simp [he])]
  · intro hd he ho
    rw [if_neg (by rintro ⟨h, -⟩; exact absurd hd (not_lt.mpr h)),
      if_neg (by simp [he]), if_pos (by simp [ho])]
  · constructor
    · intro h
      by_cases ho : orig = true
      · exfalso
        by_cases hd : dur ≤ 12
        · rw [if_pos ⟨hd, by simp [ho]⟩] at h
          exact Except.noConfusion h
        · by_cases he : ext = true
          · rw [if_neg (by rintro ⟨h1, -⟩; exact hd h1), if_pos (by simp [he])] at h
            exact Except.noConfusion h
          · rw [if_neg (by rintro ⟨h1, -⟩; exact hd h1),
              if_neg (by simpa using he), if_pos (by simp [ho])] at h
            exact Except.noConfusion h
      · by_cases he : ext = true
        · exfalso
          rw [if_neg (by rintro ⟨-, h2⟩; exact ho (by simpa using h2)),
            if_pos (by simp [he])] at h
          exact Except.noConfusion h
        · exact ⟨by simpa using ho, by simpa using he⟩
    · rintro ⟨ho, he⟩
      rw [if_neg (by rintro ⟨-, h2⟩; simp [ho] at h2), if_neg (by simp [he]),
        if_neg (by simp [ho])]

/-- Witness for C4: an 8-minute source with both templates present
selects the original template, a 20-minute source selects the extended
one, and a 20-minute source with only the original present selects the
original with a truncation advisory. -/
theorem template_selection_witness :
    choose_template 8 true true = Except.ok (TemplateChoice.original, false)
    ∧ choose_template 20 true true = Except.ok (TemplateChoice.extended, false)
    ∧ choose_template 20 true false = Except.ok (TemplateChoice.original, true) :=
  ⟨(template_selection 8 true true).1 (by norm_num) rfl,
    (template_selection 20 true true).2.1 (by norm_num) rfl,
    (template_selection 20 true false).2.2.2.1 (by norm_num) rfl rfl⟩

/-- Claim C8.  Numeric conversion semantics: each physical sample in
microvolts is multiplied by the fixed compositor-level integer scale
constant, clipped to [-32768, 32767], then cast to a 16-bit signed
integer by truncation; consequently the result always lies in the
signed 16-bit range, agrees with the truncated scaled value whenever
that value is in range, and saturates at the range ends; the two
compositor constants are the integers 10000000 and 20. -/
theorem numeric_conversion (scale x : ℚ) :
    (-32768 ≤ sampleToInt16 scale x ∧ sampleToInt16 scale x ≤ 32767)
    ∧ (-32768 ≤ x * scale → x * scale ≤ 32767 →
        sampleToInt16 scale x = ratTrunc (x * scale))
    ∧ (32767 ≤ x * scale → sampleToInt16 scale x = 32767)
    ∧ (x * scale ≤ -32768 → sampleToInt16 scale x = -32768)
    ∧ SCALING_FACTOR = (10000000 : ℤ) ∧ V2_SCALING_FACTOR = (20 : ℤ) := by
  have hclip_lo : (-32768 : ℚ) ≤ npClip (-32768) 32767 (x * scale) := by
    unfold npClip
    rcases le_or_lt (x * scale) (32767 : ℚ) with h | h
    · rw [min_eq_left (by exact le_trans (max_le h (by norm_num)) (le_refl _))]
      exact le_max_right _ _
    · rw [min_eq_right (le_trans (by norm_num) (le_max_of_le_left h.le))]
      norm_num
  have hclip_hi : npClip (-32768) 32767 (x * scale) ≤ 32767 := min_le_right _ _
  have htr_lo : ∀ y : ℚ, (-32768 : ℚ) ≤ y → (-32768 : ℤ) ≤ ratTrunc y := by
    intro y hy
    unfold ratTrunc
    split
    · exact Int.le_floor.mpr (by push_cast; exact hy)
    · calc (-32768 : ℤ) ≤ ⌊y⌋ := Int.le_floor.mpr (by push_cast; exact hy)
        _ ≤ ⌈y⌉ := Int.floor_le_ceil y
  have htr_hi : ∀ y : ℚ, y ≤ 32767 → ratTrunc y ≤ 32767 := by
    intro y hy
    unfold ratTrunc
    split
    · calc ⌊y⌋ ≤ ⌈y⌉ := Int.floor_le_ceil y
        _ ≤ 32767 := Int.ceil_le.mpr (by push_cast; exact hy)
    · exact Int.ceil_le.mpr (by push_cast; exact hy)
  refine ⟨⟨htr_lo _ hclip_lo, htr_hi _ hclip_hi⟩, ?_, ?_, ?_, rfl, rfl⟩
  · intro hlo hhi
    unfold sampleToInt16
    congr 1
    unfold npClip
    rw [max_eq_left hlo, min_eq_left hhi]
  · intro hs
    unfold sampleToInt16 npClip
    rw [min_eq_right (le_trans (by norm_num) (le_max_of_le_left hs))]
    unfold ratTrunc
    rw [if_pos (by norm_num), show ((32767 : ℚ)) = ((32767 : ℤ) : ℚ) by norm_num,
      Int.floor_intCast]
  · intro hs
    unfold sampleToInt16 npClip
    rw [max_eq_right (le_trans hs (by norm_num)), min_eq_left (by norm_num)]
    unfold ratTrunc
    rw [if_neg (by norm_num), show ((-32768 : ℚ)) = ((-32768 : ℤ) : ℚ) by norm_num,
      Int.ceil_intCast]

/-- Witness for C8: one microvolt scaled by the main constant saturates
at 32767, and 2.5 microvolts scaled by the v2 constant is exactly the
truncated scaled value. -/
theorem numeric_conversion_witness :
    sampleToInt16 SCALING_FACTOR 1 = 32767
    ∧ sampleToInt16 V2_SCALING_FACTOR (5/2) = ratTrunc ((5/2) * V2_SCALING_FACTOR) :=
  ⟨(numeric_conversion SCALING_FACTOR 1).2.2.1 (by norm_num [SCALING_FACTOR]),
    (numeric_conversion V2_SCALING_FACTOR (5/2)).2.1
      (by norm_num [V2_SCALING_FACTOR]) (by norm_num [V2_SCALING_FACTOR])⟩

theorem dedupFirstAux_const (r : ℚ) (l seen : List ℚ) (hall : ∀ y ∈ l, y = r) :
    dedupFirstAux l seen = if r ∈ seen then [] else if l = [] then [] else [r] := by
  induction l generalizing seen with
  | nil =>
    simp [dedupFirstAux]
  | cons a xs ih =>
    have ha : a = r := hall a (List.mem_cons_self a xs)
    subst ha
    have hxs : ∀ y ∈ xs, y = a := fun y hy => hall y (List.mem_cons_of_mem a hy)
    simp only [dedupFirstAux]
    by_cases hs : a ∈ seen
    · rw [if_pos hs, ih seen hxs, if_pos hs, if_pos hs]
    · rw [if_neg hs, ih (a :: seen) hxs, if_pos (List.mem_cons_self a seen),
        if_neg hs, if_neg (List.cons_ne_nil a xs)]

theorem mem_dedupFirstAux (l : List ℚ) (seen : List ℚ) (x : ℚ) :
    x ∈ dedupFirstAux l seen ↔ x ∈ l ∧ x ∉ seen := by
  induction l generalizing seen with
  | nil => simp [dedupFirstAux]
  | cons a xs ih =>
    simp only [dedupFirstAux]
    by_cases hs : a ∈ seen
    · rw [if_pos hs, ih]
      constructor
      · rintro ⟨h1, h2⟩
        exact ⟨List.mem_cons_of_mem a h1, h2⟩
      · rintro ⟨h1, h2⟩
        rcases List.mem_cons.mp h1 with rfl | h1
        · exact absurd hs h2
        · exact ⟨h1, h2⟩
    · rw [if_neg hs]
      simp only [List.mem_cons, ih]
      constructor
      · rintro (rfl | ⟨h1, h2⟩)
        · exact ⟨Or.inl rfl, hs⟩
        · exact ⟨Or.inr h1, fun hc => h2 (Or.inr hc)⟩
      · rintro ⟨rfl | h1, h2⟩
        · exact Or.inl rfl
        · by_cases hxa : x = a
          · exact Or.inl hxa
          · exact Or.inr ⟨h1, fun hc => hc.elim hxa h2⟩

theorem roundHalfEven_of_lt (x : ℚ) (h : x - ⌊x⌋ < 1/2) : roundHalfEven x = ⌊x⌋ :=
  if_pos h

theorem pyRound6_one_third : pyRound6 (1/3) = 333333/1000000 := by
  have hfl : ⌊(1/3 : ℚ) * 1000000⌋ = 333333 := by
    rw [Int.floor_eq_iff]
    norm_num
  unfold pyRound6
  rw [roundHalfEven_of_lt _ (by rw [hfl]; norm_num), hfl]
  norm_num

theorem pyRound6_const250 : pyRound6 250 = 250 := by
  have hfl : ⌊(250 : ℚ) * 1000000⌋ = 250000000 := by
    rw [Int.floor_eq_iff]
    norm_num
  unfold pyRound6
  rw [roundHalfEven_of_lt _ (by rw [hfl]; norm_num), hfl]
  norm_num

/-- Counterexample for C3: the per-channel rates [1/3, 1/3] are bit-for-bit
equal, yet common_fs does not return that unique rate: it returns the
rate rounded to six decimal places, 0.333333. -/
theorem common_fs_counterexample :
    (∀ y ∈ [(1 : ℚ)/3, 1/3], y = 1/3)
    ∧ common_fs true [1/3, 1/3] = (some (333333/1000000), true)
    ∧ common_fs true [1/3, 1/3] ≠ (some (1/3), true) := by
  have hmap : [((1 : ℚ)/3), 1/3].map pyRound6 = [333333/1000000, 333333/1000000] := by
    rw [List.map_cons, List.map_cons, List.map_nil, pyRound6_one_third]
  have hdf : dedupFirst ([((1 : ℚ)/3), 1/3].map pyRound6) = [333333/1000000] := by
    rw [hmap]
    unfold dedupFirst
    rw [dedupFirstAux_const (333333/1000000) _ _ (by simp),
      if_neg (List.not_mem_nil _), if_neg (by simp)]
  have hval : common_fs true [1/3, 1/3] = (some (333333/1000000), true) := by
    unfold common_fs
    rw [if_neg (by simp), hdf]
    rfl
  refine ⟨by simp, hval, ?_⟩
  rw [hval]
  intro h
  simp only [Prod.mk.injEq, Option.some.injEq] at h
  exact absurd h.1 (by norm_num)

/-- Amended claim C3.  Here common_fs compares the per-channel rates only after
rounding to six decimal places: when every rate rounds to the same
value r it returns (r, true) — r being the rounded value, not
necessarily any channel's exact rate — and when two rates round
differently it returns the first-encountered statistical mode of the
raw rates with the flag false; an invalid header yields (none, false). -/
theorem common_fs_amended (fsList : List ℚ) (hne : fsList ≠ []) :
    (∀ r, (∀ y ∈ fsList, pyRound6 y = r) → common_fs true fsList = (some r, true))
    ∧ ((∃ a ∈ fsList, ∃ b ∈ fsList, pyRound6 a ≠ pyRound6 b) →
        common_fs true fsList = (pyMode fsList, false))
    ∧ common_fs false fsList = (none, false) := by
  refine ⟨?_, ?_, rfl⟩
  · intro r hall
    have hall2 : ∀ y ∈ fsList.map pyRound6, y = r := by
      intro y hy
      obtain ⟨z, hz, rfl⟩ := List.mem_map.mp hy
      exact hall z hz
    have hne2 : fsList.map pyRound6 ≠ [] := by
      simpa using hne
    have hd : dedupFirst (fsList.map pyRound6) = [r] := by
      unfold dedupFirst
      rw [dedupFirstAux_const r _ _ hall2, if_neg (List.not_mem_nil r), if_neg hne2]
    unfold common_fs
    rw [if_neg (by simp), hd]
    rfl
  · rintro ⟨a, ha, b, hb, hab⟩
    have hlen : (dedupFirst (fsList.map pyRound6)).length ≠ 1 := by
      intro hlen
      obtain ⟨u, hu⟩ := List.length_eq_one.mp hlen
      have hma : pyRound6 a ∈ dedupFirst (fsList.map pyRound6) := by
        unfold dedupFirst
        rw [mem_dedupFirstAux]
        exact ⟨List.mem_map_of_mem _ ha, List.not_mem_nil _⟩
      have hmb : pyRound6 b ∈ dedupFirst (fsList.map pyRound6) := by
        unfold dedupFirst
        rw [mem_dedupFirstAux]
        exact ⟨List.mem_map_of_mem _ hb, List.not_mem_nil _⟩
      rw [hu, List.mem_singleton] at hma hmb
      exact hab (hma.trans hmb.symm)
    unfold common_fs
    rw [if_neg (by simp), if_neg hlen]

/-- Witness for C3 (amended): two channels at exactly 250 Hz agree
after rounding, and common_fs reports (250, true). -/
theorem common_fs_amended_witness :
    common_fs true [250, 250] = (some 250, true) :=
  (common_fs_amended [250, 250] (by simp)).1 250 (by simp [pyRound6_const250])

/-- Claim C5.  Binary size check: the check passes exactly when the
artifact's byte size equals channel count times total samples per
channel times bytes per sample; the check entry always records the
exact expected and observed byte counts, and any difference makes the
check fail and adds the mismatch advice. -/
theorem binary_size_check (n_signals : ℕ) (n_records : ℤ) (spr0 : ℕ)
    (fmt : BinFmt) (file_bytes : ℕ) :
    ((eeg_size_check n_signals n_records spr0 fmt file_bytes).pass = true ↔
      (file_bytes : ℤ) = n_signals * (n_records * spr0) * bytesPerSample fmt)
    ∧ (eeg_size_check n_signals n_records spr0 fmt file_bytes).expected_bytes
        = n_signals * (n_records * spr0) * bytesPerSample fmt
    ∧ (eeg_size_check n_signals n_records spr0 fmt file_bytes).observed_bytes
        = file_bytes
    ∧ ((file_bytes : ℤ) ≠ n_signals * (n_records * spr0) * bytesPerSample fmt →
        (eeg_size_check n_signals n_records spr0 fmt file_bytes).pass = false
        ∧ (eeg_size_check n_signals n_records spr0 fmt file_bytes).mismatchAdvice
            = true) := by
  unfold eeg_size_check
  refine ⟨?_, rfl, rfl, ?_⟩
  · simp [eq_comm]
  · intro h
    constructor
    · simpa using fun hc => h hc.symm
    · simpa using fun hc => h hc.symm

/-- Witness for C5: 19 channels, 10 records of 250 samples, INT_16; a
file one byte larger than 95000 fails the check with the mismatch
advice, and a file of exactly 95000 bytes passes. -/
theorem binary_size_check_witness :
    ((eeg_size_check 19 10 250 BinFmt.int16 95001).pass = false
      ∧ (eeg_size_check 19 10 250 BinFmt.int16 95001).mismatchAdvice = true)
    ∧ (eeg_size_check 19 10 250 BinFmt.int16 95000).pass = true :=
  ⟨(binary_size_check 19 10 250 BinFmt.int16 95001).2.2.2 (by decide),
    (binary_size_check 19 10 250 BinFmt.int16 95000).1.mpr (by decide)⟩

/-- Claim C6.  Channel label checking: the label-set check passes exactly
when the upper-cased label sets coincide (mutual membership, Python
set equality); when the sets match but the lists differ (different
order or length) the order advisory is emitted while the check still
passes, so no check fails because of ordering alone. -/
theorem label_set_check (vhdr edf : List (List Char)) :
    ((labels_check vhdr edf).pass = true ↔
      ((∀ x ∈ vhdr.map pyUpper, x ∈ edf.map pyUpper) ∧
        (∀ y ∈ edf.map pyUpper, y ∈ vhdr.map pyUpper)))
    ∧ ((labels_check vhdr edf).pass = true → vhdr ≠ edf →
        (labels_check vhdr edf).orderAdvice = true)
    ∧ ((labels_check vhdr edf).orderAdvice = true →
        (labels_check vhdr edf).pass = true) := by
  unfold labels_check pySetEq
  refine ⟨?_, ?_, ?_⟩
  · simp [List.all_eq_true]
  · intro hpass hne
    simp only [decide_eq_true_eq] at hpass ⊢
    exact ⟨hpass, hne⟩
  · intro hadv
    simp only [decide_eq_true_eq] at hadv ⊢
    exact hadv.1

/-- Witness for C6: the same two labels in opposite order and different
case pass the set check and raise the order advisory. -/
theorem label_set_check_witness :
    (labels_check [['F','p','1'], ['F','p','2']] [['F','P','2'], ['f','p','1']]).orderAdvice = true
    ∧ (labels_check [['F','p','1'], ['F','p','2']] [['F','P','2'], ['f','p','1']]).pass = true :=
  ⟨(label_set_check [['F','p','1'], ['F','p','2']] [['F','P','2'], ['f','p','1']]).2.1
      ((label_set_check [['F','p','1'], ['F','p','2']] [['F','P','2'], ['f','p','1']]).1.mpr
        (by decide))
      (by decide),
    (label_set_check [['F','p','1'], ['F','p','2']] [['F','P','2'], ['f','p','1']]).1.mpr
      (by decide)⟩

theorem floor_le_roundHalfEven (y : ℚ) : ⌊y⌋ ≤ roundHalfEven y := by
  unfold roundHalfEven
  split_ifs <;> omega

theorem roundHalfEven_le_ceil (y : ℚ) : roundHalfEven y ≤ ⌈y⌉ := by
  unfold roundHalfEven
  split_ifs with h1 h2 h3
  · exact Int.floor_le_ceil y
  · have : ⌊y⌋ < ⌈y⌉ := Int.lt_ceil.mpr (by nlinarith [h2])
    omega
  · exact Int.floor_le_ceil y
  · have h4 : (1 : ℚ)/2 ≤ y - ⌊y⌋ := not_lt.mp h1
    have : ⌊y⌋ < ⌈y⌉ := Int.lt_ceil.mpr (by nlinarith [h4])
    omega

theorem pyRound3_unit (x : ℚ) (h0 : 0 ≤ x) (h1 : x ≤ 1) :
    0 ≤ pyRound3 x ∧ pyRound3 x ≤ 1 := by
  unfold pyRound3
  constructor
  · apply div_nonneg _ (by norm_num)
    have hf : (0 : ℤ) ≤ ⌊x * 1000⌋ := Int.floor_nonneg.mpr (by positivity)
    have hr := floor_le_roundHalfEven (x * 1000)
    exact_mod_cast le_trans hf hr
  · rw [div_le_one (by norm_num)]
    have hc : ⌈x * 1000⌉ ≤ (1000 : ℤ) := Int.ceil_le.mpr (by push_cast; nlinarith)
    have hr := roundHalfEven_le_ceil (x * 1000)
    exact_mod_cast le_trans hr hc

theorem clinicalScore_bounds (e : Option ClinicalEdfFlags)
    (c : Option ClinicalChannelFlags) :
    0 ≤ (clinicalScore e c).1 ∧ (clinicalScore e c).1 ≤ 2/5 := by
  unfold clinicalScore boolScore
  rcases e with _ | f <;> rcases c with _ | g <;>
    simp only <;> (try split_ifs) <;> norm_num

theorem clinicalBonus_bounds (e : Option ClinicalEdfFlags)
    (c : Option ClinicalChannelFlags) :
    0 ≤ clinicalBonus e c ∧ clinicalBonus e c ≤ 2/25 := by
  obtain ⟨hs0, hs1⟩ := clinicalScore_bounds e c
  unfold clinicalBonus
  split_ifs with hn
  · have hn1 : (1 : ℚ) ≤ ((clinicalScore e c).2 : ℚ) := by exact_mod_cast hn
    have hratio : (clinicalScore e c).1 / ((clinicalScore e c).2 : ℚ)
        ≤ (clinicalScore e c).1 := div_le_self hs0 hn1
    have hratio0 : 0 ≤ (clinicalScore e c).1 / ((clinicalScore e c).2 : ℚ) :=
      div_nonneg hs0 (by linarith)
    constructor
    · nlinarith
    · nlinarith
  · norm_num

theorem signalBonus_bounds (s : SignalQC)
    (hq : ∀ q, s.qualityScore = some q → 0 ≤ q ∧ q ≤ 100)
    (hv : ∀ v, s.complianceScore = some v → 0 ≤ v ∧ v ≤ 1) :
    0 ≤ signalBonus s ∧ signalBonus s ≤ 1/4 := by
  unfold signalBonus
  rcases hq1 : s.qualityScore with _ | q <;> rcases hv1 : s.complianceScore with _ | v <;>
    simp only
  · norm_num
  · obtain ⟨hv0, hv2⟩ := hv v hv1
    split_ifs <;> constructor <;> linarith
  · obtain ⟨hq0, hq2⟩ := hq q hq1
    constructor <;> linarith
  · obtain ⟨hq0, hq2⟩ := hq q hq1
    obtain ⟨hv0, hv2⟩ := hv v hv1
    split_ifs <;> constructor <;> linarith

theorem severityPenalty_nonneg (s : Severity) : 0 ≤ severityPenalty s := by
  cases s <;> norm_num [severityPenalty]

theorem advancedPenalty_nonneg (sig : Option SignalQC) : 0 ≤ advancedPenalty sig := by
  unfold advancedPenalty
  rcases sig with _ | s
  · exact le_refl 0
  · simp only
    split_ifs
    · apply List.sum_nonneg
      intro x hx
      obtain ⟨sv, _, rfl⟩ := List.mem_map.mp hx
      exact severityPenalty_nonneg sv
    · exact le_refl 0

theorem advancedBonus_bounds (e : Option ClinicalEdfFlags)
    (c : Option ClinicalChannelFlags) (sig : Option SignalQC)
    (hq : ∀ s, sig = some s → ∀ q, s.qualityScore = some q → 0 ≤ q ∧ q ≤ 100)
    (hv : ∀ s, sig = some s → ∀ v, s.complianceScore = some v → 0 ≤ v ∧ v ≤ 1) :
    0 ≤ advancedBonus e c sig ∧ advancedBonus e c sig ≤ 33/100 := by
  obtain ⟨hc0, hc1⟩ := clinicalBonus_bounds e c
  unfold advancedBonus
  rcases hs : sig with _ | s
  · simp only
    constructor <;> linarith
  · simp only
    split_ifs
    · obtain ⟨hb0, hb1⟩ := signalBonus_bounds s (hq s hs) (hv s hs)
      constructor <;> linarith
    · constructor <;> linarith

theorem assessmentOf_rank_mono (z w : ℚ) (h : z ≤ w) :
    (assessmentOf z).rank ≤ (assessmentOf w).rank := by
  unfold assessmentOf
  split_ifs <;> simp [Assessment.rank] <;> linarith

/-- Claim C7.  Confidence scoring: the final confidence is the fraction of
checks passed (0 with no checks) plus a nonnegative bounded
clinical/signal bonus, minus penalties proportional to the counts of
critical issues (0.25 each) and warnings (0.03 each) and the artifact
penalty, clamped to [0,1]; the rounded reported value also lies in
[0,1], and the assessment tier is a monotone function of the
confidence with the fixed thresholds 0.95/0.85/0.75/0.60/0.40. -/
theorem confidence_scoring (checks : List Bool) (criticals warnings : ℕ)
    (e : Option ClinicalEdfFlags) (c : Option ClinicalChannelFlags)
    (sig : Option SignalQC)
    (hq : ∀ s, sig = some s → ∀ q, s.qualityScore = some q → 0 ≤ q ∧ q ≤ 100)
    (hv : ∀ s, sig = some s → ∀ v, s.complianceScore = some v → 0 ≤ v ∧ v ≤ 1) :
    (0 ≤ finalConfidence checks criticals warnings e c sig
      ∧ finalConfidence checks criticals warnings e c sig ≤ 1)
    ∧ finalConfidence checks criticals warnings e c sig
        = max 0 (min 1 (baseConfidence (checks.count true) checks.length
            + advancedBonus e c sig - (criticals : ℚ) * (1/4)
            - (warnings : ℚ) * (3/100) - advancedPenalty sig))
    ∧ (checks.length ≠ 0 → baseConfidence (checks.count true) checks.length
        = (checks.count true : ℚ) / (checks.length : ℚ))
    ∧ (checks.length = 0 → baseConfidence (checks.count true) checks.length = 0)
    ∧ (0 ≤ advancedBonus e c sig ∧ advancedBonus e c sig ≤ 33/100)
    ∧ 0 ≤ advancedPenalty sig
    ∧ (0 ≤ pyRound3 (finalConfidence checks criticals warnings e c sig)
      ∧ pyRound3 (finalConfidence checks criticals warnings e c sig) ≤ 1)
    ∧ (∀ z w : ℚ, z ≤ w → (assessmentOf z).rank ≤ (assessmentOf w).rank)
    ∧ (95/100 ≤ finalConfidence checks criticals warnings e c sig →
        assessmentOf (finalConfidence checks criticals warnings e c sig)
          = Assessment.excellent)
    ∧ (finalConfidence checks criticals warnings e c sig < 40/100 →
        assessmentOf (finalConfidence checks criticals warnings e c sig)
          = Assessment.critical) := by
  have h01 : 0 ≤ finalConfidence checks criticals warnings e c sig
      ∧ finalConfidence checks criticals warnings e c sig ≤ 1 := by
    unfold finalConfidence
    exact ⟨le_max_left _ _, max_le (by norm_num) (min_le_left _ _)⟩
  refine ⟨h01, rfl, ?_, ?_, advancedBonus_bounds e c sig hq hv,
    advancedPenalty_nonneg sig, pyRound3_unit _ h01.1 h01.2,
    assessmentOf_rank_mono, ?_, ?_⟩
  · intro h
    unfold baseConfidence
    rw [if_pos h]
  · intro h
    unfold baseConfidence
    rw [if_neg (by simp [h])]
  · intro h
    unfold assessmentOf
    rw [if_pos h]
  · intro h
    unfold assessmentOf
    rw [if_neg (by linarith), if_neg (by linarith), if_neg (by linarith),
      if_neg (by linarith), if_neg (by linarith)]

/-- Witness for C7: three checks with two passes, one critical issue
and two warnings, no optional sections; the confidence lies in [0,1]. -/
theorem confidence_scoring_witness :
    0 ≤ finalConfidence [true, true, false] 1 2 none none none
    ∧ finalConfidence [true, true, false] 1 2 none none none ≤ 1 :=
  (confidence_scoring [true, true, false] 1 2 none none none
    (fun _ hs => nomatch hs) (fun _ hs => nomatch hs)).1

end EEGParadox
